import Mathlib

/-!
Verification of the Context Switch Guardian core (src/app.py):
transcript classification, the interruption log, the focus-state
tracker and the daily report generator, embedded shallowly over
`List Char` strings and explicit state passing.
-/

namespace Guardian

/-- Python strings are modelled as lists of characters. -/
abbrev PyStr := List Char

/-- Timestamps (ISO strings in the source) are opaque character strings. -/
abbrev Timestamp := List Char

/-- Python lowercasing `transcript.lower()` (ASCII case folding). -/
def pyLower (s : PyStr) : PyStr := s.map Char.toLower

/-- Does `needle` match at the head of `haystack`? (helper for `in`). -/
def leadMatch : List Char → List Char → Bool
  | [], _ => true
  | _ :: _, [] => false
  | a :: as, b :: bs => a == b && leadMatch as bs

/-- Python `needle in haystack`: contiguous-substring containment. -/
def subMatch (needle : List Char) : List Char → Bool
  | [] => leadMatch needle []
  | b :: bs => leadMatch needle (b :: bs) || subMatch needle bs

/-- The focus-mode trigger substrings of `detect_focus_mode`. -/
def focusTriggers : List PyStr :=
  [ "focus mode".data
  , "entering focus mode".data
  , "deep work".data
  , "do not disturb".data
  , "dnd".data ]

/-- Source function `detect_focus_mode(transcript)` of src/app.py. -/
def detect_focus_mode (transcript : PyStr) : Bool :=
  let text := pyLower transcript
  focusTriggers.any (fun trigger => subMatch trigger text)

/-- The four interruption categories (closed set). -/
inductive InterruptionType where
  | casual_chat
  | work_request
  | meeting
  | urgent
deriving DecidableEq, Repr

/-- Keyword set for each interruption category, as in `detect_interruption`. -/
def keywordsOf : InterruptionType → List PyStr
  | .casual_chat => ["lunch".data, "coffee".data, "how are you".data, "hey".data, "what\x27s up".data]
  | .work_request => ["can you".data, "quick question".data, "need help".data, "could you".data]
  | .meeting => ["meeting".data, "call".data, "zoom".data, "schedule".data, "calendar".data]
  | .urgent => ["urgent".data, "asap".data, "emergency".data, "now".data, "immediately".data]

/-- The `patterns` dict of `detect_interruption`, in insertion order. -/
def patterns : List (InterruptionType × List PyStr) :=
  [ (.casual_chat, keywordsOf .casual_chat)
  , (.work_request, keywordsOf .work_request)
  , (.meeting, keywordsOf .meeting)
  , (.urgent, keywordsOf .urgent) ]

/-- Source function `detect_interruption(transcript)` of src/app.py: the first category
in `patterns` order with any keyword substring match wins. -/
def detect_interruption (transcript : PyStr) : Option InterruptionType :=
  let text := pyLower transcript
  (patterns.find? (fun p => p.2.any (fun keyword => subMatch keyword text))).map Prod.fst

/-- Whether a category has any keyword matching the lowercased transcript. -/
def matchesType (t : InterruptionType) (transcript : PyStr) : Bool :=
  (keywordsOf t).any (fun keyword => subMatch keyword (pyLower transcript))

/-- Priority rank of each category: position in the `patterns` dict. -/
def typePriority : InterruptionType → Nat
  | .casual_chat => 0
  | .work_request => 1
  | .meeting => 2
  | .urgent => 3

/-- One record of the interruption log, as appended by `save_interruption`. -/
structure InterruptionRecord where
  transcript : PyStr
  timestamp : Timestamp
  type : InterruptionType
  time_lost_minutes : Nat
deriving DecidableEq, Repr

/-- The process-wide mutable state: the `interruptions` list and `user_state`. -/
structure AppState where
  interruptions : List InterruptionRecord
  focus_mode_active : Bool
  focus_start_time : Option Timestamp
deriving DecidableEq, Repr

/-- The initial state of src/app.py: empty log, focus mode off. -/
def initialState : AppState :=
  { interruptions := [], focus_mode_active := false, focus_start_time := none }

/-- Source function `save_interruption(transcript, timestamp, int_type)`: append one record
with the constant 23-minute cost. -/
def save_interruption (transcript : PyStr) (timestamp : Timestamp)
    (int_type : InterruptionType) (s : AppState) : AppState :=
  { s with interruptions :=
      s.interruptions ++ [⟨transcript, timestamp, int_type, 23⟩] }

/-- Source function `activate_focus_mode()`: set the active flag and record the clock reading
`now` (the Slack notification is an external effect, not state). -/
def activate_focus_mode (now : Timestamp) (s : AppState) : AppState :=
  { s with focus_mode_active := true, focus_start_time := some now }

/-- Result code returned by `process_conversation` (its return strings
`focus_mode_activated`, `interruption_<type>`, `no_action_needed`). -/
inductive ProcResult where
  | focus_mode_activated
  | interruption (t : InterruptionType)
  | no_action_needed
deriving DecidableEq, Repr

/-- Source function `process_conversation(transcript, timestamp)`: focus-mode check first,
then interruption detection, else no action. `now` is the clock reading
`datetime.now()` used inside `activate_focus_mode`. -/
def process_conversation (transcript : PyStr) (timestamp now : Timestamp)
    (s : AppState) : AppState × ProcResult :=
  if detect_focus_mode transcript then
    (activate_focus_mode now s, .focus_mode_activated)
  else
    match detect_interruption transcript with
    | some i => (save_interruption transcript timestamp i s, .interruption i)
    | none => (s, .no_action_needed)

/-- Round to the nearest integer, ties to even: the rounding rule of both
IEEE binary64 arithmetic and CPython's `round`. -/
def roundHalfEvenZ (x : ℚ) : ℤ :=
  let f := ⌊x⌋
  let r := x - (f : ℚ)
  if r < 1/2 then f
  else if 1/2 < r then f + 1
  else if f % 2 = 0 then f else f + 1

/-- Python `round(x, 1)`: the tenths decimal CPython selects, rounding the
exact value of its argument half to even at tenths. CPython applies this
to the exact binary value of a float argument and stores the nearest
double to the selected decimal; the selected decimal is the observable
value and is what this function returns. -/
def pyRound1 (x : ℚ) : ℚ := (roundHalfEvenZ (x * 10) : ℚ) / 10

/-- The exact value of the IEEE binary64 double nearest a nonnegative
rational: 53 significant bits, round to nearest, ties to even. The
exponent is unbounded (no overflow or subnormal handling: the quotients
arising here are 0 or lie far inside the normal range). This models
CPython's correctly-rounded int/int true division. -/
def floatOfRat (q : ℚ) : ℚ :=
  if q ≤ 0 then 0
  else (roundHalfEvenZ (q * 2 ^ (52 - Int.log 2 q)) : ℚ) * 2 ^ (Int.log 2 q - 52)

/-- One step of the `by_type` counting loop of `generate_daily_report`:
`by_type[t] = by_type.get(t, 0) + 1` on an insertion-ordered dict. -/
def bumpCount : List (InterruptionType × Nat) → InterruptionType →
    List (InterruptionType × Nat)
  | [], t => [(t, 1)]
  | (a, n) :: rest, t =>
      if a = t then (a, n + 1) :: rest else (a, n) :: bumpCount rest t

/-- The `by_type` dict after the counting loop of `generate_daily_report`. -/
def countByType (records : List InterruptionRecord) :
    List (InterruptionType × Nat) :=
  records.foldl (fun acc r => bumpCount acc r.type) []

/-- The high-interruption tip message. -/
def tipHigh : String := "High interruption day! Try blocking focus time tomorrow."

/-- The positive-reinforcement tip message. -/
def tipGreat : String := "Great focus day! Keep it up."

/-- The moderate-use tip message. -/
def tipModerate : String := "Moderate interruptions. Use focus mode for deep work."

/-- Source function `get_tip(count)` of src/app.py. -/
def get_tip (count : Nat) : String :=
  if count > 15 then tipHigh
  else if count < 5 then tipGreat
  else tipModerate

/-- The report dict built by `generate_daily_report`. -/
structure DailyReport where
  total_interruptions : Nat
  hours_lost : ℚ
  focus_score : ℚ
  interruptions_by_type : List (InterruptionType × Nat)
  tip : String
deriving DecidableEq, Repr

/-- Source function `generate_daily_report()` of src/app.py, as a function
of the log. `hours_lost` follows the program's float pipeline: the int/int
division `(total * 23) / 60` is the nearest double to the exact quotient
(`floatOfRat`), and `round(. , 1)` selects a tenths decimal from that
double (`pyRound1`), so at decimal ties the result can differ from exact
decimal rounding of the quotient (3 records give 1.1, not 1.2).
`focus_score` is kept on exact values: its clamped scores never fall at or
near a decimal tie, so the selected decimal agrees with the program's. -/
def generate_daily_report (records : List InterruptionRecord) : DailyReport :=
  let total := records.length
  { total_interruptions := total
  , hours_lost := pyRound1 (floatOfRat ((total : ℚ) * 23 / 60))
  , focus_score := pyRound1 (max 1 (min 10 (10 - (total : ℚ) / 3)))
  , interruptions_by_type := countByType records
  , tip := get_tip total }

/-- The `/report/daily` route: reads the log, state unchanged (the Slack
send is an external effect). -/
def reportStep (s : AppState) : AppState × DailyReport :=
  (s, generate_daily_report s.interruptions)

/-- A core operation: an inbound webhook event or a daily-report request. -/
inductive Op where
  | event (transcript : PyStr) (timestamp now : Timestamp)
  | report

/-- The state change of one core operation. -/
def opStep (s : AppState) : Op → AppState
  | .event transcript timestamp now =>
      (process_conversation transcript timestamp now s).1
  | .report => (reportStep s).1

/-- Run a sequence of core operations from a state. -/
def runOps (s : AppState) : List Op → AppState
  | [] => s
  | op :: rest => runOps (opStep s op) rest

/-- Whether an operation carries a focus-mode classification. -/
def opActivatesFocus : Op → Bool
  | .event transcript _ _ => detect_focus_mode transcript
  | .report => false

/-- Run a sequence of `save_interruption` appends from a state. -/
def runSaves (s : AppState) :
    List (PyStr × Timestamp × InterruptionType) → AppState
  | [] => s
  | (tr, ts, ty) :: rest => runSaves (save_interruption tr ts ty s) rest

/-- Sum of the counts in a by-type mapping. -/
def sumCounts (l : List (InterruptionType × Nat)) : Nat :=
  (l.map Prod.snd).sum

/-- Python whitespace characters (ASCII range of `str.isspace`). -/
def isPySpace (c : Char) : Bool :=
  c == ' ' || c == '\t' || c == '\n' || c == '\r' || c == '\x0b' || c == '\x0c'

/-! Theorems. -/

/-- Claim C1: a transcript whose lowercased form contains a focus-mode
trigger substring is classified as focus-mode activation and never as an
interruption — the focus-mode check runs first and short-circuits
interruption detection, so the interruption log is untouched. -/
theorem focus_short_circuits (transcript : PyStr) (timestamp now : Timestamp)
    (s : AppState)
    (h : focusTriggers.any (fun trigger => subMatch trigger (pyLower transcript)) = true) :
    (process_conversation transcript timestamp now s).2 = .focus_mode_activated ∧
    (process_conversation transcript timestamp now s).1.interruptions = s.interruptions := by
  have hf : detect_focus_mode transcript = true := h
  simp [process_conversation, hf, activate_focus_mode]

/-- Witness for C1: a transcript holding both the trigger `dnd` and the
interruption keywords `can you` and `now` activates focus mode. -/
theorem focus_short_circuits_witness :
    (process_conversation "dnd can you help now".data [] [] initialState).2 =
      .focus_mode_activated ∧
    (process_conversation "dnd can you help now".data [] [] initialState).1.interruptions =
      initialState.interruptions :=
  focus_short_circuits "dnd can you help now".data [] [] initialState (by decide)

/-- Evaluation rule for ties-to-even rounding below the halfway point. -/
theorem roundHalfEvenZ_of_lt (x : ℚ) (f : ℤ) (hfl : (f : ℚ) ≤ x)
    (hfu : x < f + 1) (hr : x - f < 1/2) : roundHalfEvenZ x = f := by
  have hf : ⌊x⌋ = f := Int.floor_eq_iff.mpr ⟨hfl, hfu⟩
  simp only [roundHalfEvenZ, hf]
  rw [if_pos hr]

/-- Evaluation rule for ties-to-even rounding at a tie with odd floor. -/
theorem roundHalfEvenZ_tie_odd (x : ℚ) (f : ℤ) (hfl : (f : ℚ) ≤ x)
    (hfu : x < f + 1) (hr : x - f = 1/2) (hodd : f % 2 = 1) :
    roundHalfEvenZ x = f + 1 := by
  have hf : ⌊x⌋ = f := Int.floor_eq_iff.mpr ⟨hfl, hfu⟩
  simp only [roundHalfEvenZ, hf]
  rw [if_neg (by rw [hr]; exact lt_irrefl _),
    if_neg (by rw [hr]; exact lt_irrefl _),
    if_neg (by rw [hodd]; decide)]

/-- The binary exponent of 23/20 (the 3-record quotient 1.15) is 0. -/
theorem intLog_of_quotient_at_3 : Int.log 2 ((23:ℚ)/20) = 0 := by
  rw [Int.log_of_one_le_right 2 (by norm_num : (1:ℚ) ≤ 23/20)]
  have h : ⌊(23:ℚ)/20⌋₊ = 1 := by
    rw [Nat.floor_eq_iff (by norm_num)]
    norm_num
  rw [h, Nat.log_one_right]
  rfl

/-- The double nearest 3 * 23 / 60 = 1.15: its 53-bit mantissa rounds the
scaled quotient 5179139571476070.4 down, landing just below 1.15. -/
theorem floatOfRat_at_3 :
    floatOfRat ((3:ℚ) * 23 / 60) = 5179139571476070 / 2^52 := by
  have hq : ((3:ℚ) * 23 / 60) = 23/20 := by norm_num
  rw [hq, floatOfRat, if_neg (by norm_num), intLog_of_quotient_at_3]
  rw [show (23:ℚ)/20 * 2 ^ ((52:ℤ) - 0) = 25895697857380352/5 by norm_num]
  rw [roundHalfEvenZ_of_lt (25895697857380352/5) 5179139571476070
    (by norm_num) (by norm_num) (by norm_num)]
  norm_num

/-- Claim C3 as stated is false on the code: at 3 records the program's
float pipeline lands just below the tie 1.15 and `round` selects 1.1,
while exact decimal rounding of 3 * 23 / 60 = 1.15 selects 1.2. -/
theorem hours_lost_exact_round_fails :
    (generate_daily_report
      [⟨[], [], .urgent, 23⟩, ⟨[], [], .urgent, 23⟩, ⟨[], [], .urgent, 23⟩]).hours_lost =
      11/10 ∧
    pyRound1 ((3 : ℚ) * 23 / 60) = 6/5 ∧
    (generate_daily_report
      [⟨[], [], .urgent, 23⟩, ⟨[], [], .urgent, 23⟩, ⟨[], [], .urgent, 23⟩]).hours_lost ≠
      pyRound1 ((3 : ℚ) * 23 / 60) := by
  have hrep : (generate_daily_report
      [⟨[], [], .urgent, 23⟩, ⟨[], [], .urgent, 23⟩, ⟨[], [], .urgent, 23⟩]).hours_lost =
      pyRound1 (floatOfRat ((3 : ℚ) * 23 / 60)) := by
    show pyRound1 (floatOfRat ((List.length _ : ℚ) * 23 / 60)) = _
    norm_num
  have hpy1 : pyRound1 ((5179139571476070:ℚ) / 2^52) = 11/10 := by
    unfold pyRound1
    rw [show (5179139571476070:ℚ)/2^52 * 10 = 12947848928690175/1125899906842624 by norm_num]
    rw [roundHalfEvenZ_of_lt (12947848928690175/1125899906842624) 11
      (by norm_num) (by norm_num) (by norm_num)]
    norm_num
  have hpy2 : pyRound1 ((3 : ℚ) * 23 / 60) = 6/5 := by
    unfold pyRound1
    rw [show (3:ℚ) * 23 / 60 * 10 = 23/2 by norm_num]
    rw [roundHalfEvenZ_tie_odd (23/2) 11
      (by norm_num) (by norm_num) (by norm_num) (by decide)]
    norm_num
  refine ⟨?_, hpy2, ?_⟩
  · rw [hrep, floatOfRat_at_3, hpy1]
  · rw [hrep, floatOfRat_at_3, hpy1, hpy2]
    norm_num

/-- Claim C3 (amended): for every record sequence the report has
`total_interruptions = length`; `hours_lost` is `round(total * 23 / 60, 1)`
under Python float semantics — the exact quotient is first rounded to the
nearest IEEE double, then `round` selects the nearest tenths decimal, half
to even on the double's exact value, which at decimal ties can differ from
exact decimal rounding (3 records give 1.1, not 1.2); `focus_score` is
`round(clamp(10 - total / 3, 1, 10), 1)`; the empty sequence yields totals
0, 0.0 hours lost, score 10.0 and an empty by-type mapping. -/
theorem report_formulas (records : List InterruptionRecord) :
    (generate_daily_report records).total_interruptions = records.length ∧
    (generate_daily_report records).hours_lost =
      pyRound1 (floatOfRat ((records.length : ℚ) * 23 / 60)) ∧
    (generate_daily_report records).focus_score =
      pyRound1 (max 1 (min 10 (10 - (records.length : ℚ) / 3))) ∧
    generate_daily_report [] =
      { total_interruptions := 0, hours_lost := 0, focus_score := 10
      , interruptions_by_type := [], tip := get_tip 0 } := by
  refine ⟨rfl, rfl, rfl, ?_⟩
  have h0 : pyRound1 0 = 0 := by norm_num [pyRound1, roundHalfEvenZ]
  have h10 : pyRound1 10 = 10 := by norm_num [pyRound1, roundHalfEvenZ]
  have h00 : floatOfRat 0 = 0 := by simp [floatOfRat]
  simp [generate_daily_report, countByType, h0, h10, h00]

/-- Claim C4: the tip is the high-interruption message exactly when the
count exceeds 15, the positive message exactly when it is below 5, and the
moderate message exactly on the band 5..15; in particular counts 5 and 15
are moderate and count 4 is positive. -/
theorem tip_bands (n : Nat) :
    (get_tip n = tipHigh ↔ 15 < n) ∧
    (get_tip n = tipGreat ↔ n < 5) ∧
    (get_tip n = tipModerate ↔ 5 ≤ n ∧ n ≤ 15) ∧
    get_tip 5 = tipModerate ∧ get_tip 15 = tipModerate ∧ get_tip 4 = tipGreat := by
  have hHG : tipHigh ≠ tipGreat := by decide
  have hHM : tipHigh ≠ tipModerate := by decide
  have hGM : tipGreat ≠ tipModerate := by decide
  refine ⟨?_, ?_, ?_, by decide, by decide, by decide⟩
  · constructor
    · intro h
      by_contra hlt
      unfold get_tip at h
      rw [if_neg hlt] at h
      by_cases h2 : n < 5
      · rw [if_pos h2] at h
        exact hHG h.symm
      · rw [if_neg h2] at h
        exact hHM h.symm
    · intro h
      unfold get_tip
      rw [if_pos h]
  · constructor
    · intro h
      by_contra hlt
      unfold get_tip at h
      by_cases h1 : 15 < n
      · rw [if_pos h1] at h
        exact hHG h
      · rw [if_neg h1, if_neg hlt] at h
        exact hGM h.symm
    · intro h
      have h1 : ¬ 15 < n := by omega
      unfold get_tip
      rw [if_neg h1, if_pos h]
  · constructor
    · intro h
      unfold get_tip at h
      by_cases h1 : 15 < n
      · rw [if_pos h1] at h
        exact absurd h hHM
      · by_cases h2 : n < 5
        · rw [if_neg h1, if_pos h2] at h
          exact absurd h hGM
        · exact ⟨by omega, by omega⟩
    · rintro ⟨ha, hb⟩
      have h1 : ¬ 15 < n := by omega
      have h2 : ¬ n < 5 := by omega
      unfold get_tip
      rw [if_neg h1, if_neg h2]

/-- Claim C6: activating focus mode twice from any state leaves it active
with `start_time` equal to the second call's timestamp. -/
theorem activate_twice (t1 t2 : Timestamp) (s : AppState) :
    (activate_focus_mode t2 (activate_focus_mode t1 s)).focus_mode_active = true ∧
    (activate_focus_mode t2 (activate_focus_mode t1 s)).focus_start_time = some t2 :=
  ⟨rfl, rfl⟩

/-- Claim C9: report generation leaves the state unchanged, a second
invocation on the unchanged state yields an identical report, and the
report is a function of the record list alone. -/
theorem report_deterministic (s : AppState) :
    (reportStep s).1 = s ∧
    (reportStep (reportStep s).1).2 = (reportStep s).2 ∧
    (reportStep s).2 = generate_daily_report s.interruptions :=
  ⟨rfl, rfl, rfl⟩

/-- Claim C10: one event-processing call mutates at most one piece of
state: a focus-mode activation leaves the log unchanged, a recorded
interruption leaves the focus state unchanged, and no action leaves the
whole state unchanged. -/
theorem process_frame (transcript : PyStr) (timestamp now : Timestamp)
    (s : AppState) :
    match process_conversation transcript timestamp now s with
    | (s2, .focus_mode_activated) => s2.interruptions = s.interruptions
    | (s2, .interruption _) =>
        s2.focus_mode_active = s.focus_mode_active ∧
        s2.focus_start_time = s.focus_start_time
    | (s2, .no_action_needed) => s2 = s := by
  unfold process_conversation
  by_cases hf : detect_focus_mode transcript
  · simp [hf, activate_focus_mode]
  · cases hd : detect_interruption transcript with
    | some i => simp [hf, hd, save_interruption]
    | none => simp [hf, hd]

/-- One operation's effect on the focus flag: set exactly by a focus-mode
classification, never cleared. -/
theorem opStep_focus (s : AppState) (op : Op) :
    (opStep s op).focus_mode_active =
      (s.focus_mode_active || opActivatesFocus op) := by
  cases op with
  | event tr ts now =>
    by_cases h : detect_focus_mode tr
    · simp [opStep, process_conversation, h, activate_focus_mode, opActivatesFocus]
    · cases hd : detect_interruption tr <;>
        simp [opStep, process_conversation, h, hd, save_interruption, opActivatesFocus]
  | report => simp [opStep, reportStep, opActivatesFocus]

/-- Claim C7: over any sequence of core operations the focus flag is the
initial flag OR-ed with the presence of a focus-mode classification — so an
active focus state never transitions back to inactive, and the only way to
become active is a focus-mode classification. -/
theorem focus_never_deactivates (s : AppState) (ops : List Op) :
    (runOps s ops).focus_mode_active =
      (s.focus_mode_active || ops.any opActivatesFocus) := by
  induction ops generalizing s with
  | nil => simp [runOps]
  | cons op rest ih =>
    rw [runOps, ih, opStep_focus]
    simp [Bool.or_assoc]

/-- The interruption log after a run of appends: the old log extended with
one 23-minute record per append, in order. -/
theorem runSaves_interruptions (saves : List (PyStr × Timestamp × InterruptionType))
    (s : AppState) :
    (runSaves s saves).interruptions =
      s.interruptions ++ saves.map (fun x => ⟨x.1, x.2.1, x.2.2, 23⟩) := by
  induction saves generalizing s with
  | nil => simp [runSaves]
  | cons x rest ih =>
    obtain ⟨tr, ts, ty⟩ := x
    rw [runSaves, ih]
    simp [save_interruption]

/-- Bumping one category's count raises the total count by one. -/
theorem sumCounts_bumpCount (l : List (InterruptionType × Nat))
    (t : InterruptionType) :
    sumCounts (bumpCount l t) = sumCounts l + 1 := by
  induction l with
  | nil => simp [bumpCount, sumCounts]
  | cons p rest ih =>
    obtain ⟨a, n⟩ := p
    by_cases h : a = t <;> simp [bumpCount, h, sumCounts] at ih ⊢ <;> omega

/-- The by-type counts of the report always sum to the record count. -/
theorem sumCounts_countByType (records : List InterruptionRecord) :
    sumCounts (countByType records) = records.length := by
  suffices h : ∀ acc, sumCounts (records.foldl (fun acc r => bumpCount acc r.type) acc) =
      sumCounts acc + records.length by
    have := h []
    simpa [countByType, sumCounts] using this
  induction records with
  | nil => simp
  | cons r rest ih =>
    intro acc
    rw [List.foldl_cons, ih, sumCounts_bumpCount]
    simp only [List.length_cons]
    omega

/-- Claim C5: after any sequence of appends from the initial state, every
stored record has one of the four category values and the constant
23-minute cost, and the report's total equals the sum of the by-type
counts equals the number of appends. -/
theorem log_invariants (saves : List (PyStr × Timestamp × InterruptionType)) :
    ((runSaves initialState saves).interruptions.all
      (fun r => r.time_lost_minutes == 23 &&
        (r.type == .casual_chat || r.type == .work_request ||
         r.type == .meeting || r.type == .urgent))) = true ∧
    (generate_daily_report (runSaves initialState saves).interruptions).total_interruptions =
      saves.length ∧
    sumCounts ((generate_daily_report (runSaves initialState saves).interruptions).interruptions_by_type) =
      saves.length := by
  rw [runSaves_interruptions]
  refine ⟨?_, ?_, ?_⟩
  · simp only [initialState, List.nil_append, List.all_eq_true]
    intro x hx
    obtain ⟨y, hy, rfl⟩ := List.mem_map.mp hx
    cases y.2.2 <;> rfl
  · simp [generate_daily_report, initialState]
  · rw [show (generate_daily_report _).interruptions_by_type = countByType _ from rfl,
      sumCounts_countByType]
    simp [initialState]

/-- Cascade form of `detect_interruption`: the
result depends only on which categories match, checked in the fixed
`patterns` order. -/
theorem detect_interruption_cases (transcript : PyStr) :
    detect_interruption transcript =
      (if matchesType .casual_chat transcript then some .casual_chat
       else if matchesType .work_request transcript then some .work_request
       else if matchesType .meeting transcript then some .meeting
       else if matchesType .urgent transcript then some .urgent
       else none) := by
  unfold detect_interruption matchesType
  cases hc : ((keywordsOf .casual_chat).any fun keyword => subMatch keyword (pyLower transcript)) <;>
    cases hw : ((keywordsOf .work_request).any fun keyword => subMatch keyword (pyLower transcript)) <;>
      cases hm : ((keywordsOf .meeting).any fun keyword => subMatch keyword (pyLower transcript)) <;>
        cases hu : ((keywordsOf .urgent).any fun keyword => subMatch keyword (pyLower transcript)) <;>
          simp [patterns, List.find?, hc, hw, hm, hu]

/-- Claim C2: when a transcript (focus trigger or not) matches keywords of
several interruption categories, the detected type is the matching
category of least priority rank in the fixed order casual_chat,
work_request, meeting, urgent — a function of the matching-category set
only. -/
theorem priority_tiebreak (transcript : PyStr) (t1 t2 : InterruptionType)
    (h1 : matchesType t1 transcript = true)
    (h2 : matchesType t2 transcript = true)
    (hne : t1 ≠ t2) :
    ∃ t, detect_interruption transcript = some t ∧
      matchesType t transcript = true ∧
      ∀ u, matchesType u transcript = true → typePriority t ≤ typePriority u := by
  rw [detect_interruption_cases]
  by_cases hc : matchesType .casual_chat transcript
  · exact ⟨.casual_chat, by simp [hc], hc, fun u _ => Nat.zero_le _⟩
  · by_cases hw : matchesType .work_request transcript
    · refine ⟨.work_request, by simp [hc, hw], hw, fun u hu => ?_⟩
      cases u
      · exact absurd hu hc
      all_goals simp [typePriority]
    · by_cases hm : matchesType .meeting transcript
      · refine ⟨.meeting, by simp [hc, hw, hm], hm, fun u hu => ?_⟩
        cases u
        · exact absurd hu hc
        · exact absurd hu hw
        all_goals simp [typePriority]
      · by_cases hu : matchesType .urgent transcript
        · refine ⟨.urgent, by simp [hc, hw, hm, hu], hu, fun u hu2 => ?_⟩
          cases u
          · exact absurd hu2 hc
          · exact absurd hu2 hw
          · exact absurd hu2 hm
          · exact Nat.le_refl _
        · exfalso
          cases t1
          · exact absurd h1 hc
          · exact absurd h1 hw
          · exact absurd h1 hm
          · exact absurd h1 hu

/-- Witness for C2: `lunch meeting now` matches casual_chat, meeting and
urgent keywords; the detected type is the highest-priority match. -/
theorem priority_tiebreak_witness :
    ∃ t, detect_interruption "lunch meeting now".data = some t ∧
      matchesType t "lunch meeting now".data = true ∧
      ∀ u, matchesType u "lunch meeting now".data = true →
        typePriority t ≤ typePriority u :=
  priority_tiebreak "lunch meeting now".data .casual_chat .meeting
    (by decide) (by decide) (by decide)

/-- A head match puts every needle character into the haystack. -/
theorem leadMatch_mem (needle hay : List Char) (h : leadMatch needle hay = true)
    (c : Char) (hc : c ∈ needle) : c ∈ hay := by
  induction needle generalizing hay with
  | nil => cases hc
  | cons a as ih =>
    cases hay with
    | nil => exact absurd h (by simp [leadMatch])
    | cons b bs =>
      rw [leadMatch, Bool.and_eq_true] at h
      rcases List.mem_cons.mp hc with rfl | hmem
      · exact List.mem_cons.mpr (Or.inl (eq_of_beq h.1))
      · exact List.mem_cons.mpr (Or.inr (ih bs h.2 hmem))

/-- A substring match puts every needle character into the haystack. -/
theorem subMatch_mem (needle hay : List Char) (h : subMatch needle hay = true)
    (c : Char) (hc : c ∈ needle) : c ∈ hay := by
  induction hay with
  | nil =>
    cases needle with
    | nil => cases hc
    | cons a as => exact absurd h (by simp [subMatch, leadMatch])
  | cons b bs ih =>
    rw [subMatch, Bool.or_eq_true] at h
    rcases h with h | h
    · exact leadMatch_mem needle (b :: bs) h c hc
    · exact List.mem_cons.mpr (Or.inr (ih h))

/-- ASCII case folding maps whitespace to itself. -/
theorem isPySpace_toLower (c : Char) (h : isPySpace c = true) :
    isPySpace c.toLower = true := by
  simp only [isPySpace, Bool.or_eq_true, beq_iff_eq] at h
  rcases h with ((((rfl | rfl) | rfl) | rfl) | rfl) | rfl <;> decide

/-- No keyword with a non-whitespace character matches inside a
whitespace-only transcript. -/
theorem no_match_in_blank (transcript : PyStr)
    (h : transcript.all isPySpace = true) (k : PyStr)
    (hk : (k.any fun c => !(isPySpace c)) = true) :
    subMatch k (pyLower transcript) = false := by
  by_contra hsub
  rw [Bool.not_eq_false] at hsub
  obtain ⟨c, hck, hcs⟩ := List.any_eq_true.mp hk
  have hc2 : c ∈ pyLower transcript := subMatch_mem _ _ hsub c hck
  obtain ⟨d, hd, rfl⟩ := List.mem_map.mp hc2
  have hds : isPySpace d = true := List.all_eq_true.mp h d hd
  have := isPySpace_toLower d hds
  simp [this] at hcs

/-- Claim C8: an empty or whitespace-only transcript triggers neither the
focus-mode branch nor any interruption category; processing it leaves the
state unchanged and reports no action. -/
theorem blank_no_action (transcript : PyStr)
    (h : transcript.all isPySpace = true) :
    detect_focus_mode transcript = false ∧
    detect_interruption transcript = none ∧
    ∀ timestamp now s,
      process_conversation transcript timestamp now s = (s, .no_action_needed) := by
  have htrig : ∀ k ∈ focusTriggers, subMatch k (pyLower transcript) = false := by
    intro k hk
    refine no_match_in_blank transcript h k ?_
    exact List.all_eq_true.mp
      (by decide : (focusTriggers.all fun k => k.any fun c => !(isPySpace c)) = true) k hk
  have hmt : ∀ t : InterruptionType,
      ((keywordsOf t).any fun keyword => subMatch keyword (pyLower transcript)) = false := by
    intro t
    simp only [List.any_eq_false]
    intro k hk
    have hblank : ((keywordsOf t).all fun kw => kw.any fun c => !(isPySpace c)) = true := by
      cases t <;> decide
    simp [no_match_in_blank transcript h k (List.all_eq_true.mp hblank k hk)]
  have hfocus : detect_focus_mode transcript = false := by
    unfold detect_focus_mode
    simp only [List.any_eq_false]
    intro k hk
    simp [htrig k hk]
  have hint : detect_interruption transcript = none := by
    simp [detect_interruption, patterns, List.find?, hmt .casual_chat,
      hmt .work_request, hmt .meeting, hmt .urgent]
  refine ⟨hfocus, hint, fun timestamp now s => ?_⟩
  simp [process_conversation, hfocus, hint]

/-- Witness for C8: a single-space transcript is processed as no action. -/
theorem blank_no_action_witness :
    detect_focus_mode " ".data = false ∧
    detect_interruption " ".data = none ∧
    process_conversation " ".data [] [] initialState =
      (initialState, .no_action_needed) := by
  obtain ⟨a, b, c⟩ := blank_no_action " ".data (by decide)
  exact ⟨a, b, c [] [] initialState⟩

end Guardian
